import Mathlib

/-!
Verification of the calculator-api repository (DevTroli/calculator-api).

Shallow embedding of `src/calculator.py` (classes `Calculator` and
`CalculatorUsers`) and of the divide endpoint of `src/FastAPI_Rest.py`.

Modelling conventions:
* Python floats are idealised as exact rationals (`ℚ`); the spec promises
  no precision policy beyond native floating point, and every claim is
  algebraic.
* A raised Python exception is an `Except.error` value carrying the
  exception class and message, so that the boundary layer's
  `except ZeroDivisionError` / `except Exception` dispatch can be modelled
  kind-by-kind.
* The `CalculatorUsers` dictionary `self.User : dict[int, dict]` is an
  association list `List (Int × Record)` with Python's dict semantics:
  lookup finds the (unique) entry with the given key, insertion of a fresh
  key appends, `del` removes the entry, and in-place mutation of a value is
  a keyed map over the entries.  Every mutating method returns the
  resulting dictionary state alongside the Python return value, and a
  raised exception leaves the state exactly as it was (the Python methods
  raise before mutating anything).
-/

/-- A Python exception value: the exception class together with its message.
Only the two classes the repository distinguishes are needed
(`ValueError`, raised by `calculator.py`, and `ZeroDivisionError`, which
`FastAPI_Rest.api_divide` tries to catch). -/
inductive PyExc where
  | valueError (msg : String)
  | zeroDivisionError (msg : String)
deriving DecidableEq, Repr

/-- The message carried by an exception (Python `str(e)`). -/
def PyExc.message : PyExc → String
  | .valueError m => m
  | .zeroDivisionError m => m

namespace Calculator

/-- `Calculator.sum` (`src/calculator.py` line 4): `return a + b`. -/
def sum (a b : ℚ) : ℚ := a + b

/-- `Calculator.substration` (`src/calculator.py` line 8): `return a - b`. -/
def substration (a b : ℚ) : ℚ := a - b

/-- `Calculator.times` (`src/calculator.py` line 12): `return a * b`. -/
def times (a b : ℚ) : ℚ := a * b

/-- `Calculator.division` (`src/calculator.py` lines 16-20):
raises `ValueError("Divisão por zero não é permitido")` when `b == 0`,
otherwise returns `a / b`. -/
def division (a b : ℚ) : Except PyExc ℚ :=
  if b = 0 then .error (.valueError "Divisão por zero não é permitido")
  else .ok (a / b)

/-- `Calculator.power` (`src/calculator.py` lines 22-24): `return a ** b`
on Python ints.  Python's `**` raises `ZeroDivisionError` when the base is
`0` and the exponent is negative; otherwise it returns the exact value
`a ^ b` (an int for `b ≥ 0`, a float for `b < 0`, idealised here as `ℚ`). -/
def power (a b : ℤ) : Except PyExc ℚ :=
  if a = 0 ∧ b < 0 then
    .error (.zeroDivisionError "0.0 cannot be raised to a negative power")
  else .ok ((a : ℚ) ^ b)

end Calculator

/-- The outcome of an HTTP endpoint call: a 200 body with a numeric
result, or an `HTTPException(status_code, detail)`. -/
inductive ApiOutcome where
  | ok (result : ℚ)
  | httpError (status : Nat) (detail : String)
deriving DecidableEq, Repr

/-- `api_divide` (`src/FastAPI_Rest.py` lines 144-170): calls
`calc.division(a, b)`; `except ZeroDivisionError` yields a 400 with the
dedicated message, and the remaining `except Exception` yields a 400 with
`"Calculation error: " + str(e)`. -/
def api_divide (a b : ℚ) : ApiOutcome :=
  match Calculator.division a b with
  | .ok r => .ok r
  | .error (.zeroDivisionError _) =>
      .httpError 400 "Division by zero is not allowed"
  | .error e => .httpError 400 ("Calculation error: " ++ e.message)

/-- C1: for nonzero `b`, `division a b` returns `a / b`; for `b = 0` it
fails with the division-by-zero condition (the `ValueError` carrying the
zero-division notice); and it succeeds in no other way: success is
equivalent to `b ≠ 0`. -/
theorem divide_iff_nonzero (a b : ℚ) :
    (b ≠ 0 → Calculator.division a b = Except.ok (a / b)) ∧
    (b = 0 → Calculator.division a b =
      Except.error (PyExc.valueError "Divisão por zero não é permitido")) ∧
    ((∃ r, Calculator.division a b = Except.ok r) ↔ b ≠ 0) := by
  refine ⟨fun h => ?_, fun h => ?_, ?_⟩
  · simp [Calculator.division, h]
  · simp [Calculator.division, h]
  · constructor
    · rintro ⟨r, hr⟩ hb
      simp [Calculator.division, hb] at hr
    · intro hb
      exact ⟨a / b, by simp [Calculator.division, hb]⟩

/-- Witness for `divide_iff_nonzero` at `a = 10`: `division 10 2 = 5` and
`division 10 0` raises the zero-division `ValueError`. -/
theorem divide_iff_nonzero_witness :
    Calculator.division 10 2 = Except.ok 5 ∧
    Calculator.division 10 0 =
      Except.error (PyExc.valueError "Divisão por zero não é permitido") := by
  constructor
  · have h := (divide_iff_nonzero 10 2).1 (by norm_num)
    rw [h]; norm_num
  · exact (divide_iff_nonzero 10 0).2.1 rfl

/-- Counterexample to C2 as stated: `power` does fail on a finite input,
namely `power 0 (-1)` (Python raises `ZeroDivisionError` for
`0 ** -1`). -/
theorem power_can_fail :
    Calculator.power 0 (-1) =
      Except.error
        (PyExc.zeroDivisionError "0.0 cannot be raised to a negative power") ∧
    ¬ ∃ r, Calculator.power 0 (-1) = Except.ok r := by
  refine ⟨by simp [Calculator.power], ?_⟩
  rintro ⟨r, hr⟩
  simp [Calculator.power] at hr

/-- C2 (amended): `sum`, `substration` and `times` return `a + b`,
`a - b`, `a * b` and never fail; `power a b` returns `a ^ b` except when
the base is `0` and the exponent negative, the one case in which it
fails. -/
theorem arithmetic_ops_spec (a b : ℚ) (x y : ℤ) :
    Calculator.sum a b = a + b ∧
    Calculator.substration a b = a - b ∧
    Calculator.times a b = a * b ∧
    (¬ (x = 0 ∧ y < 0) → Calculator.power x y = Except.ok ((x : ℚ) ^ y)) ∧
    (x = 0 ∧ y < 0 →
      Calculator.power x y =
        Except.error
          (PyExc.zeroDivisionError "0.0 cannot be raised to a negative power")) := by
  refine ⟨rfl, rfl, rfl, fun h => ?_, fun h => ?_⟩
  · simp [Calculator.power, h]
  · simp [Calculator.power, h]

/-- Witness for `arithmetic_ops_spec` at `a = 5, b = 3, x = 2, y = 10`. -/
theorem arithmetic_ops_spec_witness :
    Calculator.sum 5 3 = 8 ∧ Calculator.power 2 10 = Except.ok 1024 := by
  have h := arithmetic_ops_spec 5 3 2 10
  refine ⟨by rw [h.1]; norm_num, ?_⟩
  have h4 := h.2.2.2.1 (by simp)
  rw [h4]; norm_num

/-- C3 fails on the code: `Calculator.division` raises a `ValueError`, so
`api_divide`'s dedicated `except ZeroDivisionError` branch is dead and
dividing by zero falls through to the generic handler, producing the
generic calculation-error message instead of the specific one. -/
theorem api_divide_by_zero_generic_branch :
    api_divide 10 0 =
      ApiOutcome.httpError 400
        "Calculation error: Divisão por zero não é permitido" ∧
    api_divide 10 0 ≠
      ApiOutcome.httpError 400 "Division by zero is not allowed" := by
  refine ⟨rfl, by decide⟩

/-! ## The user store (`CalculatorUsers`, `src/calculator.py` lines 27-70) -/

/-- The dict `{"id": id, "name": name}` stored by `CalculatorUsers.create`. -/
structure Record where
  id : Int
  name : String
deriving DecidableEq, Repr

/-- The state of `self.User : dict[int, dict]`, as an association list in
Python dict insertion order. -/
abbrev Store := List (Int × Record)

namespace CalculatorUsers

/-- Python dict indexing `self.User[id]` (and, via `isSome`, the
membership test `id in self.User`). -/
def dictGet : Store → Int → Option Record
  | [], _ => none
  | (k, u) :: rest, id => if k = id then some u else dictGet rest id

/-- `CalculatorUsers.create` (lines 34-44): raises
`ValueError("ID already exist")` when the id is present, otherwise stores
and returns `{"id": id, "name": name}`. -/
def create (s : Store) (id : Int) (name : String) :
    Except PyExc Record × Store :=
  if (dictGet s id).isSome then
    (.error (.valueError "ID already exist"), s)
  else
    (.ok ⟨id, name⟩, s ++ [(id, ⟨id, name⟩)])

/-- `CalculatorUsers.read` (lines 46-53): raises
`ValueError("User is not found")` when the id is absent, otherwise returns
`self.User[id]`.  It never mutates the dict. -/
def read (s : Store) (id : Int) : Except PyExc Record × Store :=
  match dictGet s id with
  | none => (.error (.valueError "User is not found"), s)
  | some u => (.ok u, s)

/-- The in-place mutation `d["name"] = new_name` on a stored record. -/
def setName (u : Record) (new_name : String) : Record :=
  { u with name := new_name }

/-- `CalculatorUsers.update` (lines 55-62): raises
`ValueError("User is not found")` when the id is absent, otherwise
executes `self.User[id]["name"] = new_name` (an in-place mutation of the
stored dict, modelled as a keyed map) and returns `self.User[id]`. -/
def update (s : Store) (id : Int) (new_name : String) :
    Except PyExc Record × Store :=
  match dictGet s id with
  | none => (.error (.valueError "User is not found"), s)
  | some u =>
      (.ok (setName u new_name),
        s.map fun p => if p.1 = id then (p.1, setName p.2 new_name) else p)

/-- `CalculatorUsers.delete` (lines 64-70): raises
`ValueError("User is not found")` when the id is absent, otherwise
executes `del self.User[id]`. -/
def delete (s : Store) (id : Int) : Except PyExc Unit × Store :=
  if (dictGet s id).isSome then
    (.ok (), s.filter fun p => p.1 != id)
  else
    (.error (.valueError "User is not found"), s)

/-- Stores reachable from the fresh `CalculatorUsers()` state by any
sequence of method calls (failing calls raise before mutating, so each
step uses the state component the method leaves behind). -/
inductive Reachable : Store → Prop where
  | empty : Reachable []
  | createStep (s : Store) (id : Int) (name : String) :
      Reachable s → Reachable (create s id name).2
  | readStep (s : Store) (id : Int) :
      Reachable s → Reachable (read s id).2
  | updateStep (s : Store) (id : Int) (name : String) :
      Reachable s → Reachable (update s id name).2
  | deleteStep (s : Store) (id : Int) :
      Reachable s → Reachable (delete s id).2

/-- Well-formedness of a store state: keys are pairwise distinct (Python
dict semantics) and each stored record's `"id"` field equals its key. -/
def WF (s : Store) : Prop :=
  (s.map Prod.fst).Nodup ∧ ∀ p ∈ s, p.2.id = p.1

theorem dictGet_append (s t : Store) (k : Int) :
    dictGet (s ++ t) k = (dictGet s k).or (dictGet t k) := by
  induction s with
  | nil => simp [dictGet]
  | cons p rest ih =>
      rcases p with ⟨a, u⟩
      by_cases h : a = k <;> simp [dictGet, h, ih]

theorem dictGet_eq_none_of_not_mem_keys (s : Store) (k : Int)
    (h : dictGet s k = none) : k ∉ s.map Prod.fst := by
  induction s with
  | nil => simp
  | cons p rest ih =>
      rcases p with ⟨a, u⟩
      by_cases ha : a = k
      · simp [dictGet, ha] at h
      · simp only [dictGet, if_neg ha] at h
        simpa [Ne.symm ha] using ih h

theorem dictGet_filter_self (s : Store) (k : Int) :
    dictGet (s.filter fun p => p.1 != k) k = none := by
  induction s with
  | nil => simp [dictGet]
  | cons p rest ih =>
      rcases p with ⟨a, u⟩
      by_cases h : a = k <;> simp [List.filter_cons, dictGet, h, ih]

theorem dictGet_cons (a : Int) (u : Record) (rest : Store) (k : Int) :
    dictGet ((a, u) :: rest) k = if a = k then some u else dictGet rest k := rfl

theorem dictGet_filter_ne (s : Store) (k j : Int) (h : k ≠ j) :
    dictGet (s.filter fun p => p.1 != j) k = dictGet s k := by
  induction s with
  | nil => rfl
  | cons p rest ih =>
      rcases p with ⟨a, u⟩
      by_cases h1 : a = j
      · subst h1
        have hak : ¬ a = k := fun hak => h hak.symm
        simp [List.filter_cons, dictGet_cons, hak, ih]
      · by_cases h2 : a = k <;>
          simp [List.filter_cons, dictGet_cons, h, h1, h2, ih]

theorem dictGet_map_upd (s : Store) (j k : Int) (n : String) :
    dictGet (s.map fun p => if p.1 = j then (p.1, setName p.2 n) else p) k =
      if k = j then (dictGet s k).map (fun u => setName u n) else dictGet s k := by
  induction s with
  | nil => by_cases hk : k = j <;> simp [hk, dictGet]
  | cons p rest ih =>
      rcases p with ⟨a, u⟩
      by_cases h1 : a = j
      · subst h1
        by_cases h2 : a = k
        · subst h2
          simp [dictGet_cons, ih]
        · have h2' : ¬ k = a := fun hh => h2 hh.symm
          simp [dictGet_cons, h2, h2', ih]
      · by_cases h2 : a = k
        · have hkj : ¬ k = j := fun hh => h1 (h2.trans hh)
          simp [dictGet_cons, h1, h2, hkj, ih]
        · simp [dictGet_cons, h1, h2, ih]

theorem keys_map_upd (s : Store) (j : Int) (n : String) :
    (s.map fun p => if p.1 = j then (p.1, setName p.2 n) else p).map Prod.fst =
      s.map Prod.fst := by
  induction s with
  | nil => rfl
  | cons p rest ih =>
      rcases p with ⟨a, u⟩
      by_cases h : a = j <;> simp [h, ih]

theorem read_snd (s : Store) (id : Int) : (read s id).2 = s := by
  unfold read
  cases dictGet s id <;> rfl

/-! Evaluation lemmas for the four methods, one per branch of the
Python `if`/`raise`. -/

theorem create_absent (s : Store) (id : Int) (name : String)
    (h : dictGet s id = none) :
    create s id name = (Except.ok ⟨id, name⟩, s ++ [(id, ⟨id, name⟩)]) := by
  simp [create, h]

theorem create_present (s : Store) (id : Int) (name : String) (u : Record)
    (h : dictGet s id = some u) :
    create s id name = (Except.error (PyExc.valueError "ID already exist"), s) := by
  simp [create, h]

theorem read_absent (s : Store) (id : Int) (h : dictGet s id = none) :
    read s id = (Except.error (PyExc.valueError "User is not found"), s) := by
  unfold read
  rw [h]

theorem read_present (s : Store) (id : Int) (u : Record)
    (h : dictGet s id = some u) :
    read s id = (Except.ok u, s) := by
  unfold read
  rw [h]

theorem update_absent (s : Store) (id : Int) (name : String)
    (h : dictGet s id = none) :
    update s id name = (Except.error (PyExc.valueError "User is not found"), s) := by
  unfold update
  rw [h]

theorem update_present (s : Store) (id : Int) (name : String) (u : Record)
    (h : dictGet s id = some u) :
    update s id name =
      (Except.ok (setName u name),
        s.map fun p => if p.1 = id then (p.1, setName p.2 name) else p) := by
  unfold update
  rw [h]

theorem delete_absent (s : Store) (id : Int) (h : dictGet s id = none) :
    delete s id = (Except.error (PyExc.valueError "User is not found"), s) := by
  simp [delete, h]

theorem delete_present (s : Store) (id : Int) (u : Record)
    (h : dictGet s id = some u) :
    delete s id = (Except.ok (), s.filter fun p => p.1 != id) := by
  simp [delete, h]

theorem wf_create (s : Store) (id : Int) (name : String) (hs : WF s) :
    WF (create s id name).2 := by
  cases hd : dictGet s id with
  | some u => rw [create_present s id name u hd]; exact hs
  | none =>
      rw [create_absent s id name hd]
      have hnk := dictGet_eq_none_of_not_mem_keys s id hd
      refine ⟨?_, ?_⟩
      · rw [List.map_append, List.nodup_append]
        refine ⟨hs.1, by simp, ?_⟩
        intro a ha hb
        simp only [List.map_cons, List.map_nil, List.mem_singleton] at hb
        subst hb
        exact hnk ha
      · intro p hp
        rcases List.mem_append.1 hp with hp | hp
        · exact hs.2 p hp
        · simp only [List.mem_singleton] at hp
          subst hp
          rfl

theorem wf_update (s : Store) (id : Int) (name : String) (hs : WF s) :
    WF (update s id name).2 := by
  cases hd : dictGet s id with
  | none => rw [update_absent s id name hd]; exact hs
  | some u =>
      rw [update_present s id name u hd]
      refine ⟨?_, ?_⟩
      · dsimp only
        rw [keys_map_upd]
        exact hs.1
      · intro p hp
        simp only [List.mem_map] at hp
        obtain ⟨q, hq, hpq⟩ := hp
        by_cases h : q.1 = id
        · rw [← hpq, if_pos h]
          exact h ▸ hs.2 q hq
        · rw [← hpq, if_neg h]
          exact hs.2 q hq

theorem wf_delete (s : Store) (id : Int) (hs : WF s) :
    WF (delete s id).2 := by
  cases hd : dictGet s id with
  | none => rw [delete_absent s id hd]; exact hs
  | some u =>
      rw [delete_present s id u hd]
      refine ⟨?_, ?_⟩
      · exact ((s.filter_sublist).map Prod.fst).nodup hs.1
      · intro p hp
        exact hs.2 p (List.mem_of_mem_filter hp)

theorem reachable_wf (s : Store) (h : Reachable s) : WF s := by
  induction h with
  | empty => exact ⟨List.nodup_nil, by simp⟩
  | createStep s id name _ ih => exact wf_create s id name ih
  | readStep s id _ ih => rw [read_snd]; exact ih
  | updateStep s id name _ ih => exact wf_update s id name ih
  | deleteStep s id _ ih => exact wf_delete s id ih

end CalculatorUsers

namespace CalculatorUsers

theorem dictGet_mem (s : Store) (k : Int) (u : Record)
    (h : dictGet s k = some u) : (k, u) ∈ s := by
  induction s with
  | nil => simp [dictGet] at h
  | cons p rest ih =>
      rcases p with ⟨a, w⟩
      rw [dictGet_cons] at h
      by_cases ha : a = k
      · rw [if_pos ha] at h
        injection h with h
        subst ha
        subst h
        exact List.mem_cons_self _ _
      · rw [if_neg ha] at h
        exact List.mem_cons_of_mem _ (ih h)

/-- C4: on any store in which `id` is absent, `create id name` succeeds,
appends the record `{id, name}` under key `id`, returns it, and a
subsequent `read id` on the resulting store returns `{id, name}`. -/
theorem create_then_read (s : Store) (id : Int) (name : String)
    (h : dictGet s id = none) :
    create s id name = (Except.ok ⟨id, name⟩, s ++ [(id, ⟨id, name⟩)]) ∧
    (read (create s id name).2 id).1 = Except.ok ⟨id, name⟩ := by
  have hc := create_absent s id name h
  refine ⟨hc, ?_⟩
  rw [hc]
  have hget : dictGet (s ++ [(id, ⟨id, name⟩)]) id = some ⟨id, name⟩ := by
    rw [dictGet_append, h, dictGet_cons, if_pos rfl]
    rfl
  rw [read_present _ _ _ hget]

/-- Witness for `create_then_read`: `create(1, "John Doe")` on the empty
store, then `read(1)`, yields `{id: 1, name: "John Doe"}`. -/
theorem create_then_read_witness :
    (read (create [] 1 "John Doe").2 1).1 = Except.ok ⟨1, "John Doe"⟩ :=
  (create_then_read [] 1 "John Doe" rfl).2

/-- C5: on any store already holding `id`, `create id name'` fails with
the duplicate-key `ValueError` and leaves the store unchanged; `create`
succeeds exactly when `id` is absent; and in particular a second `create`
with the same `id` directly after a successful one fails. -/
theorem create_duplicate_key (s s' : Store) (id : Int) (name name' : String) :
    ((∃ u, dictGet s id = some u) →
      create s id name' = (Except.error (PyExc.valueError "ID already exist"), s)) ∧
    ((∃ u, (create s id name').1 = Except.ok u) ↔ dictGet s id = none) ∧
    (∀ u, create s id name = (Except.ok u, s') →
      (create s' id name').1 = Except.error (PyExc.valueError "ID already exist")) := by
  refine ⟨?_, ?_, ?_⟩
  · rintro ⟨u, hu⟩
    exact create_present s id name' u hu
  · cases hd : dictGet s id with
    | none =>
        rw [create_absent s id name' hd]
        exact ⟨fun _ => rfl, fun _ => ⟨⟨id, name'⟩, rfl⟩⟩
    | some u =>
        rw [create_present s id name' u hd]
        constructor
        · rintro ⟨w, hw⟩
          simp at hw
        · intro h
          simp at h
  · intro u hc
    cases hd : dictGet s id with
    | some w =>
        rw [create_present s id name w hd] at hc
        simp at hc
    | none =>
        rw [create_absent s id name hd] at hc
        have hget : dictGet s' id = some ⟨id, name⟩ := by
          have h2 : s ++ [(id, ⟨id, name⟩)] = s' := congrArg Prod.snd hc
          rw [← h2, dictGet_append, hd, dictGet_cons, if_pos rfl]
          rfl
        rw [create_present s' id name' _ hget]

/-- Witness for `create_duplicate_key`: after `create(1, "John Doe")` on
the empty store, `create(1, "Jane Doe")` raises the duplicate-key error. -/
theorem create_duplicate_key_witness :
    (create [(1, ⟨1, "John Doe"⟩)] 1 "Jane Doe").1 =
      Except.error (PyExc.valueError "ID already exist") :=
  (create_duplicate_key [] [(1, ⟨1, "John Doe"⟩)] 1 "John Doe" "Jane Doe").2.2
    ⟨1, "John Doe"⟩ rfl

/-- C6: on any store, when `id` is absent each of `read`, `update` and
`delete` fails with the not-found `ValueError`; when `id` is present,
`read` returns the stored record, `update` succeeds, and `delete` succeeds
and removes the entry, after which `read id` fails with the not-found
error. -/
theorem crud_not_found_and_present (s : Store) (id : Int) (name : String) :
    (dictGet s id = none →
      (read s id).1 = Except.error (PyExc.valueError "User is not found") ∧
      (update s id name).1 = Except.error (PyExc.valueError "User is not found") ∧
      (delete s id).1 = Except.error (PyExc.valueError "User is not found")) ∧
    (∀ u, dictGet s id = some u →
      (read s id).1 = Except.ok u ∧
      (update s id name).1 = Except.ok (setName u name) ∧
      (delete s id).1 = Except.ok () ∧
      dictGet (delete s id).2 id = none ∧
      (read (delete s id).2 id).1 =
        Except.error (PyExc.valueError "User is not found")) := by
  constructor
  · intro h
    rw [read_absent s id h, update_absent s id name h, delete_absent s id h]
    exact ⟨rfl, rfl, rfl⟩
  · intro u hu
    have hdel := delete_present s id u hu
    have hget : dictGet (delete s id).2 id = none := by
      rw [hdel]
      exact dictGet_filter_self s id
    refine ⟨by rw [read_present s id u hu], by rw [update_present s id name u hu],
      by rw [hdel], hget, by rw [read_absent _ _ hget]⟩

/-- Witness for `crud_not_found_and_present`: `read(1)` on the empty
store raises the not-found error; on a store holding user 1, it returns
the record. -/
theorem crud_not_found_and_present_witness :
    (read [] 1).1 = Except.error (PyExc.valueError "User is not found") ∧
    (read [(1, ⟨1, "John Doe"⟩)] 1).1 = Except.ok ⟨1, "John Doe"⟩ :=
  ⟨((crud_not_found_and_present [] 1 "x").1 rfl).1,
   ((crud_not_found_and_present [(1, ⟨1, "John Doe"⟩)] 1 "x").2 ⟨1, "John Doe"⟩ rfl).1⟩

/-- C7: on any reachable store in which `id` is present,
`update id new_name` returns the record `{id, new_name}` (the stored
record with its name replaced in place), and a subsequent `read id`
returns `{id, new_name}`. -/
theorem update_then_read (s : Store) (id : Int) (new_name : String)
    (hs : Reachable s) (h : ∃ u, dictGet s id = some u) :
    (update s id new_name).1 = Except.ok ⟨id, new_name⟩ ∧
    (read (update s id new_name).2 id).1 = Except.ok ⟨id, new_name⟩ := by
  obtain ⟨u, hu⟩ := h
  have hwf := reachable_wf s hs
  have hid : u.id = id := hwf.2 (id, u) (dictGet_mem s id u hu)
  have hrec : setName u new_name = ⟨id, new_name⟩ := by
    have hs1 : setName u new_name = ⟨u.id, new_name⟩ := rfl
    rw [hs1, hid]
  have hupd := update_present s id new_name u hu
  have hget : dictGet (update s id new_name).2 id = some ⟨id, new_name⟩ := by
    rw [hupd]
    dsimp only
    rw [dictGet_map_upd, if_pos rfl, hu]
    simp [hrec]
  refine ⟨?_, by rw [read_present _ _ _ hget]⟩
  rw [hupd]
  dsimp only
  rw [hrec]

/-- Witness for `update_then_read`: `create(1, "John Doe")` then
`update(1, "John Smith")` then `read(1)` yields
`{id: 1, name: "John Smith"}`. -/
theorem update_then_read_witness :
    (read (update [(1, ⟨1, "John Doe"⟩)] 1 "John Smith").2 1).1 =
      Except.ok ⟨1, "John Smith"⟩ :=
  (update_then_read [(1, ⟨1, "John Doe"⟩)] 1 "John Smith"
    (Reachable.createStep [] 1 "John Doe" Reachable.empty)
    ⟨⟨1, "John Doe"⟩, rfl⟩).2

/-- C8: every store reachable from the fresh `CalculatorUsers()` state by
any sequence of method calls holds at most one record per id (the ids of
the stored records are pairwise distinct), every stored record's `id`
field equals the key it is filed under, and `update` never changes the
`id` field of any stored record. -/
theorem store_invariant (s : Store) (hs : Reachable s) :
    (s.map fun p => p.2.id).Nodup ∧
    (∀ p ∈ s, p.2.id = p.1) ∧
    (∀ id name k u, dictGet (update s id name).2 k = some u →
      ∃ w, dictGet s k = some w ∧ u.id = w.id) := by
  have hwf := reachable_wf s hs
  refine ⟨?_, hwf.2, ?_⟩
  · have hkeys : (s.map fun p => p.2.id) = s.map Prod.fst :=
      List.map_congr_left hwf.2
    rw [hkeys]
    exact hwf.1
  · intro id name k u hu
    cases hd : dictGet s id with
    | none =>
        rw [update_absent s id name hd] at hu
        exact ⟨u, hu, rfl⟩
    | some w0 =>
        rw [update_present s id name w0 hd] at hu
        dsimp only at hu
        rw [dictGet_map_upd] at hu
        by_cases hk : k = id
        · rw [if_pos hk] at hu
          cases hg : dictGet s k with
          | none => rw [hg] at hu; simp at hu
          | some w =>
              rw [hg] at hu
              simp only [Option.map] at hu
              injection hu with hu
              exact ⟨w, rfl, by rw [← hu]; rfl⟩
        · rw [if_neg hk] at hu
          exact ⟨u, hu, rfl⟩

/-- Witness for `store_invariant` on the store reached by
`create(1, "John Doe")` from the fresh state. -/
theorem store_invariant_witness :
    ((create [] 1 "John Doe").2.map fun p => p.2.id).Nodup :=
  (store_invariant (create [] 1 "John Doe").2
    (Reachable.createStep [] 1 "John Doe" Reachable.empty)).1

/-- C9: every failing method call leaves the store unchanged (`create` on
a present id; `update` and `delete` on an absent id; `read` on an absent
id), and `read` never changes the store at all. -/
theorem failing_ops_preserve_store (s : Store) (id : Int) (name : String) :
    ((∃ u, dictGet s id = some u) → (create s id name).2 = s) ∧
    (dictGet s id = none →
      (update s id name).2 = s ∧ (delete s id).2 = s) ∧
    (read s id).2 = s := by
  refine ⟨?_, ?_, read_snd s id⟩
  · rintro ⟨u, hu⟩
    rw [create_present s id name u hu]
  · intro h
    rw [update_absent s id name h, delete_absent s id h]
    exact ⟨rfl, rfl⟩

/-- Witness for `failing_ops_preserve_store`: a duplicate `create(1, ...)`
and an `update(1, ...)` on the empty store leave the store as it was. -/
theorem failing_ops_preserve_store_witness :
    (create [(1, ⟨1, "John Doe"⟩)] 1 "Jane").2 = [(1, ⟨1, "John Doe"⟩)] ∧
    (update [] 1 "x").2 = [] :=
  ⟨(failing_ops_preserve_store [(1, ⟨1, "John Doe"⟩)] 1 "Jane").1
      ⟨⟨1, "John Doe"⟩, rfl⟩,
   ((failing_ops_preserve_store [] 1 "x").2.1 rfl).1⟩

/-- C10: `create`, `update` and `delete` on key `id` leave the record
stored under every other key unchanged. -/
theorem ops_frame (s : Store) (id k : Int) (name : String) (hk : k ≠ id) :
    dictGet (create s id name).2 k = dictGet s k ∧
    dictGet (update s id name).2 k = dictGet s k ∧
    dictGet (delete s id).2 k = dictGet s k := by
  refine ⟨?_, ?_, ?_⟩
  · cases hd : dictGet s id with
    | some u => rw [create_present s id name u hd]
    | none =>
        rw [create_absent s id name hd]
        dsimp only
        rw [dictGet_append]
        have hsing : dictGet [(id, ⟨id, name⟩)] k = none := by
          rw [dictGet_cons, if_neg (fun hh => hk hh.symm)]
          rfl
        rw [hsing]
        cases dictGet s k <;> rfl
  · cases hd : dictGet s id with
    | none => rw [update_absent s id name hd]
    | some u =>
        rw [update_present s id name u hd]
        dsimp only
        rw [dictGet_map_upd, if_neg hk]
  · cases hd : dictGet s id with
    | none => rw [delete_absent s id hd]
    | some u =>
        rw [delete_present s id u hd]
        dsimp only
        exact dictGet_filter_ne s k id hk

/-- Witness for `ops_frame`: deleting user 1 leaves user 2's record where
it was. -/
theorem ops_frame_witness :
    dictGet (delete [(1, ⟨1, "A"⟩), (2, ⟨2, "B"⟩)] 1).2 2 =
      dictGet [(1, ⟨1, "A"⟩), (2, ⟨2, "B"⟩)] 2 :=
  (ops_frame [(1, ⟨1, "A"⟩), (2, ⟨2, "B"⟩)] 1 2 "x" (by decide)).2.2

end CalculatorUsers
